import Mathlib

/-!
Shallow embedding of `mkdocs_git_committers_plugin_2/plugin.py`.

The plugin resolves, for each documentation page, the list of contributing
authors: it reads the last commit date of the page's file from the local git
history, consults a per-path cache guarded by a cache-wide date, parses
manually declared authors from the page metadata, and otherwise queries the
GitHub GraphQL blame endpoint, merging, deduplicating and sorting the
results before updating the cache.

External effects (the git history walk, the HTTP POST and the parsed shape
of its response body, today's date, the filesystem holding the cache file)
are inputs to the model.  Python exceptions are modelled with `Except`:
`list_contributors` returns an error value exactly when the Python function
lets an exception escape to its caller.  Strings are modelled at the
granularity the code uses them: comma/slash splitting, concatenation,
equality, ASCII lowercasing and code-point lexicographic comparison.
-/

/-- ASCII lowercasing of one character, as Python's `str.lower` acts on the
ASCII range (GitHub logins are ASCII). -/
def lowerChar (c : Char) : Char :=
  if 'A' ≤ c ∧ c ≤ 'Z' then Char.ofNat (c.toNat + 32) else c

/-- Model of Python's `str.lower` on the strings the plugin handles. -/
def lowerStr (s : String) : String := ⟨s.data.map lowerChar⟩

/-- Lexicographic code-point comparison of character lists: Python's `<=` on
`str`, which `list.sort` uses on the key values. -/
def leChars : List Char → List Char → Bool
  | [], _ => true
  | _ :: _, [] => false
  | a :: as, b :: bs => if a < b then true else if b < a then false else leChars as bs

/-- Python's `<=` on strings (lexicographic by code point). -/
def strLeB (a b : String) : Bool := leChars a.data b.data

/-- One step of splitting a character list at a separator, keeping empty
pieces, as Python's `str.split(sep)` does. -/
def splitStep (sep : Char) (c : Char) : List (List Char) → List (List Char)
  | [] => [[c]]
  | g :: gs => if c = sep then [] :: g :: gs else (c :: g) :: gs

/-- Model of Python's `str.split(sep)` with an explicit separator: empty
pieces are kept, and splitting the empty string yields `[""]`. -/
def splitOnChar (sep : Char) (s : String) : List String :=
  (s.data.foldr (splitStep sep) [[]]).map (fun l => ⟨l⟩)

/-- A calendar date at day granularity, the resolution at which the code
formats (`%Y-%m-%d`) and compares commit and cache dates. -/
structure Date where
  year : Nat
  month : Nat
  day : Nat
deriving DecidableEq

/-- Strict comparison of two dates, as comparing the results of
`time.strptime(_, "%Y-%m-%d")` does in Python (tuple-lexicographic on
year, month, day). -/
def Date.ltB (a b : Date) : Bool :=
  Nat.blt a.year b.year ||
    (Nat.beq a.year b.year &&
      (Nat.blt a.month b.month || (Nat.beq a.month b.month && Nat.blt a.day b.day)))

/-- An author dict as the plugin builds it: keys `login`, `name`, `url`,
`avatar` (plugin.py lines 108 and 142). -/
structure Author where
  login : String
  name : String
  url : String
  avatar : String
deriving DecidableEq

/-- A per-path cache record: keys `last_commit_date` and `authors`
(plugin.py line 149). -/
structure FileRecord where
  last_commit_date : Date
  authors : List Author
deriving DecidableEq

/-- The plugin's configuration options (`config_scheme`, plugin.py
lines 19-27). -/
structure Config where
  github_token : String
  enterprise_hostname : String
  repository : String
  branch : String
  docs_path : String
  enabled : Bool
  cache_dir : String
deriving DecidableEq

/-- The attributes `on_config` sets only when it runs to completion
(plugin.py lines 48-55): the GitHub base URL, the avatar base URL, the
branch, the token, and the local repository handle (represented by the
presence of this structure). -/
structure ConfAttrs where
  githuburl : String
  github_avatar_url : String
  branch : String
  github_token : String
deriving DecidableEq

/-- The plugin's mutable state: the fields `__init__` creates (plugin.py
lines 29-35) plus the optional attributes of `on_config`.  `cache_date`
is `none` while the Python attribute is the falsy empty string;
`conf = none` models the `on_config` attributes never having been set, so
that reading them raises `AttributeError`. -/
structure Plugin where
  enabled : Bool
  cache_page_authors : List (String × FileRecord)
  cache_date : Option Date
  conf : Option ConfAttrs
deriving DecidableEq

/-- The state `__init__` produces (plugin.py lines 29-35). -/
def initPlugin : Plugin :=
  { enabled := true, cache_page_authors := [], cache_date := none, conf := none }

/-- plugin.py lines 37-56, `on_config`: record `enabled`; when enabled and
`repository` is empty, log an error and return with the remote attributes
untouched; otherwise set the GitHub URL (enterprise host when configured),
the avatar URL, the repository handle, the branch and the token. -/
def on_config (cfg : Config) (p : Plugin) : Plugin :=
  let p1 := { p with enabled := cfg.enabled }
  if cfg.enabled = false then p1
  else if cfg.repository = "" then p1
  else
    { p1 with
      conf := some
        { githuburl :=
            if cfg.enterprise_hostname ≠ "" then
              "https://" ++ cfg.enterprise_hostname ++ "/"
            else "https://github.com/"
          github_avatar_url := "https://avatars.githubusercontent.com/"
          branch := cfg.branch
          github_token := cfg.github_token } }

/-- The `user` object of one blame range in the GraphQL response
(plugin.py lines 132-140). -/
structure RemoteUser where
  login : String
  name : String
  avatarUrl : String
deriving DecidableEq

/-- The parsed shape of a 2xx response body: either `json.loads` or the
`data/repository/ref/target/blame/ranges` key path fails (`invalid`), or it
yields the list of per-range `commit.author.user` values, `none` standing
for a null user. -/
inductive ParsedBody where
  | invalid
  | ranges (rs : List (Option RemoteUser))
deriving DecidableEq

/-- Outcome of the `requests.post` call and `raise_for_status`
(plugin.py lines 120-121): an HTTPError (4xx/5xx), some other exception
during the request, or a 2xx response with a body. -/
inductive RemoteOutcome where
  | raiseHTTP
  | raiseOther
  | body (b : ParsedBody)
deriving DecidableEq

/-- The Python exceptions that can escape the modelled functions. -/
inductive PyErr where
  | attributeError
  | jsonError
deriving DecidableEq

/-- plugin.py lines 88-92: the loop over `Commit.iter_items` keeps the date
of the first commit yielded (most recent first); `history` is the list of
commit dates in iteration order. -/
def lastCommitDateLoop (history : List Date) : Option Date :=
  history.foldl (fun acc c => if acc = none then some c else acc) none

/-- Point lookup in the cache mapping, Python's `path in dict` /
`dict[path]`. -/
def getRecord : List (String × FileRecord) → String → Option FileRecord
  | [], _ => none
  | (k, v) :: rest, path => if k == path then some v else getRecord rest path

/-- Point update of the cache mapping, Python's `dict[path] = record`:
replace in place when the key exists, append otherwise. -/
def setRecord : List (String × FileRecord) → String → FileRecord → List (String × FileRecord)
  | [], path, v => [(path, v)]
  | (k, w) :: rest, path, v =>
      if k == path then (k, v) :: rest else (k, w) :: setRecord rest path v

/-- The cache guard of plugin.py lines 100-101: a record exists for the
path, `self.cache_date` is set (non-empty), and the last commit date is
strictly before the cache date. -/
def cacheFresh (p : Plugin) (path : String) (last_commit_date : Date) : Bool :=
  match getRecord p.cache_page_authors path, p.cache_date with
  | some _, some cd => Date.ltB last_commit_date cd
  | _, _ => false

/-- plugin.py lines 104-108: each comma-separated token of the page's
`authors` metadata becomes an author dict, the token used verbatim as
`login` and `name` and appended to the two base URLs. -/
def manualAuthorsOf (githuburl github_avatar_url : String) (metaAuthors : Option String) :
    List Author :=
  match metaAuthors with
  | none => []
  | some s =>
      (splitOnChar ',' s).map fun username =>
        { login := username, name := username, url := githuburl ++ username,
          avatar := github_avatar_url ++ username }

/-- plugin.py lines 132-142, one iteration of the loop over the blame
ranges: skip a null user; skip a user whose login already occurs among the
collected blame authors or among the manual authors; otherwise append. -/
def addBlameAuthor (githuburl : String) (manual_authors : List Author)
    (blame_authors : List Author) : Option RemoteUser → List Author
  | none => blame_authors
  | some u =>
      if (blame_authors.any fun x => x.login == u.login) ||
          (manual_authors.any fun x => x.login == u.login) then
        blame_authors
      else
        blame_authors ++
          [{ login := u.login, name := u.name, url := githuburl ++ u.login,
             avatar := u.avatarUrl }]

/-- The sort key order of plugin.py line 144: non-decreasing by login
lowercased. -/
def loginLe (a b : Author) : Prop :=
  strLeB (lowerStr a.login) (lowerStr b.login) = true

instance : DecidableRel loginLe := fun a b =>
  inferInstanceAs (Decidable (strLeB (lowerStr a.login) (lowerStr b.login) = true))

/-- plugin.py line 144, `blame_authors.sort(key = lambda x: x['login'].lower())`:
Python's sort is stable, as is insertion sort, so both compute the same
permutation for this key order. -/
def sortBlame (l : List Author) : List Author := List.insertionSort loginLe l

instance {ε α : Type} [DecidableEq ε] [DecidableEq α] : DecidableEq (Except ε α) := fun x y =>
  match x, y with
  | Except.error a, Except.error b => decidable_of_iff (a = b) (by simp)
  | Except.ok a, Except.ok b => decidable_of_iff (a = b) (by simp)
  | Except.error _, Except.ok _ => isFalse (by intro h; cases h)
  | Except.ok _, Except.error _ => isFalse (by intro h; cases h)

/-- The value `list_contributors` produces: the Python return value (or the
exception that escapes), the plugin state after the call, and whether
`requests.post` was executed. -/
structure ResolveOut where
  result : Except PyErr (List Author × Date)
  state : Plugin
  remoteCalled : Bool
deriving DecidableEq

/-- plugin.py lines 146-151: concatenate manual and blame authors, store
the record for the path in the cache, and return the pair. -/
def finishResolve (p : Plugin) (path : String) (last_commit_date : Date)
    (manual_authors blame_authors : List Author) (remoteCalled : Bool) : ResolveOut :=
  let authors := manual_authors ++ blame_authors
  { result := Except.ok (authors, last_commit_date)
    state :=
      { p with
        cache_page_authors :=
          setRecord p.cache_page_authors path
            { last_commit_date := last_commit_date, authors := authors } }
    remoteCalled := remoteCalled }

/-- plugin.py lines 104-151, the part after the cache check.  Building the
request body indexes `repository.split('/')[1]` inside the `try` block, so
a repository without a slash raises IndexError there, which the generic
`except` catches before any POST is made.  An HTTPError from
`raise_for_status` and any other exception raised inside the `try` block
are caught and leave `blame_authors` empty.  The `else` block then parses
the body: a failure of `json.loads` or of the key-path access raises there,
outside the `try` block, and the exception escapes before the cache is
updated. -/
def resolveViaRemote (cfg : Config) (p : Plugin) (conf : ConfAttrs) (path : String)
    (metaAuthors : Option String) (last_commit_date : Date) (remote : RemoteOutcome) :
    ResolveOut :=
  let manual_authors := manualAuthorsOf conf.githuburl conf.github_avatar_url metaAuthors
  if (splitOnChar '/' cfg.repository).length < 2 then
    finishResolve p path last_commit_date manual_authors [] false
  else
    match remote with
    | RemoteOutcome.raiseHTTP => finishResolve p path last_commit_date manual_authors [] true
    | RemoteOutcome.raiseOther => finishResolve p path last_commit_date manual_authors [] true
    | RemoteOutcome.body ParsedBody.invalid =>
        { result := Except.error PyErr.jsonError, state := p, remoteCalled := true }
    | RemoteOutcome.body (ParsedBody.ranges rs) =>
        let blame_authors :=
          sortBlame (rs.foldl (addBlameAuthor conf.githuburl manual_authors) [])
        finishResolve p path last_commit_date manual_authors blame_authors true

/-- plugin.py lines 58-151, `list_contributors`.  Reading
`self.localrepo` on line 89 raises `AttributeError` when `on_config` never
set it.  With no commit touching the path, return `([], today)` without
touching the cache.  With a cache record, a set cache date and a strictly
earlier last commit date, return the cached pair.  Otherwise resolve via
the remote endpoint. -/
def list_contributors (cfg : Config) (p : Plugin) (path : String)
    (metaAuthors : Option String) (history : List Date) (today : Date)
    (remote : RemoteOutcome) : ResolveOut :=
  match p.conf with
  | none => { result := Except.error PyErr.attributeError, state := p, remoteCalled := false }
  | some conf =>
    match lastCommitDateLoop history with
    | none => { result := Except.ok ([], today), state := p, remoteCalled := false }
    | some last_commit_date =>
      match getRecord p.cache_page_authors path, p.cache_date with
      | some rec, some cd =>
          if Date.ltB last_commit_date cd then
            { result := Except.ok (rec.authors, rec.last_commit_date), state := p,
              remoteCalled := false }
          else
            resolveViaRemote cfg p conf path metaAuthors last_commit_date remote
      | some _, none => resolveViaRemote cfg p conf path metaAuthors last_commit_date remote
      | none, _ => resolveViaRemote cfg p conf path metaAuthors last_commit_date remote

/-- The JSON document `on_post_build` writes and `on_pre_build` reads
(plugin.py lines 171 and 181-183), modelled after `json.dumps`/`json.loads`
which round-trip this shape. -/
structure CacheDoc where
  cache_date : Date
  page_authors : List (String × FileRecord)
deriving DecidableEq

/-- plugin.py line 173/178: the cache file path inside the cache
directory. -/
def cacheFilePath (cfg : Config) : String := cfg.cache_dir ++ "/page-authors.json"

/-- plugin.py lines 169-175, `on_post_build`: write the document holding
today's date and the in-memory page-author mapping to the cache file; the
filesystem is modelled as a mapping from path to stored document. -/
def on_post_build (cfg : Config) (p : Plugin) (today : Date)
    (fs : String → Option CacheDoc) : String → Option CacheDoc :=
  fun k =>
    if k == cacheFilePath cfg then
      some { cache_date := today, page_authors := p.cache_page_authors }
    else fs k

/-- plugin.py lines 177-184, `on_pre_build`: when the cache file exists,
load it and set `cache_date` and `cache_page_authors` from it. -/
def on_pre_build (cfg : Config) (p : Plugin) (fs : String → Option CacheDoc) : Plugin :=
  match fs (cacheFilePath cfg) with
  | some cache =>
      { p with cache_date := some cache.cache_date,
               cache_page_authors := cache.page_authors }
  | none => p

/-! Sample values used by concrete witnesses and counterexamples. -/

/-- A configuration with a well-formed `owner/repo` repository. -/
def cfgA : Config :=
  { github_token := "token", enterprise_hostname := "", repository := "owner/repo",
    branch := "main", docs_path := "docs/", enabled := true,
    cache_dir := ".cache/plugin/git-committers" }

/-- The attributes `on_config` derives from `cfgA`. -/
def confA : ConfAttrs :=
  { githuburl := "https://github.com/",
    github_avatar_url := "https://avatars.githubusercontent.com/",
    branch := "main", github_token := "token" }

/-- A configured plugin with an empty cache. -/
def pA : Plugin :=
  { enabled := true, cache_page_authors := [], cache_date := none, conf := some confA }

/-- A sample commit date. -/
def dA : Date := ⟨2024, 3, 1⟩

/-- A sample value for today's date. -/
def tA : Date := ⟨2024, 3, 2⟩

/-- A cached record for `docs/a.md`. -/
def recA : FileRecord :=
  ⟨⟨2024, 1, 1⟩, [{ login := "alice", name := "Alice", url := "u", avatar := "v" }]⟩

/-- A configured plugin whose cache holds `recA` under `docs/a.md` and whose
cache date postdates that record's commit date. -/
def pCached : Plugin :=
  { pA with cache_page_authors := [("docs/a.md", recA)], cache_date := some ⟨2024, 2, 1⟩ }

/-- The configuration with the `repository` option left empty. -/
def cfgNoRepo : Config := { cfgA with repository := "" }

/-! Helper lemmas. -/

theorem leChars_total (as : List Char) : ∀ bs, leChars as bs = true ∨ leChars bs as = true := by
  induction as with
  | nil => intro bs; exact Or.inl rfl
  | cons a as ih =>
    intro bs
    cases bs with
    | nil => exact Or.inr rfl
    | cons b bs =>
      rcases lt_trichotomy a b with h | h | h
      · left; simp [leChars, h]
      · subst h
        have hirr : ¬ a < a := lt_irrefl a
        rcases ih bs with h2 | h2
        · left; simp [leChars, hirr, h2]
        · right; simp [leChars, hirr, h2]
      · right; simp [leChars, h]

theorem leChars_trans (as : List Char) :
    ∀ bs cs, leChars as bs = true → leChars bs cs = true → leChars as cs = true := by
  induction as with
  | nil => intro bs cs _ _; rfl
  | cons a as ih =>
    intro bs cs h1 h2
    cases bs with
    | nil => simp [leChars] at h1
    | cons b bs =>
      cases cs with
      | nil => simp [leChars] at h2
      | cons c cs =>
        simp only [leChars] at h1 h2 ⊢
        rcases lt_trichotomy a b with hab | hab | hab
        · rcases lt_trichotomy b c with hbc | hbc | hbc
          · have hac : a < c := lt_trans hab hbc
            simp [hac]
          · subst hbc; simp [hab]
          · have h3 : ¬ b < c := lt_asymm hbc
            simp [h3, hbc] at h2
        · subst hab
          have hirr : ¬ a < a := lt_irrefl a
          simp [hirr] at h1
          rcases lt_trichotomy a c with hac | hac | hac
          · simp [hac]
          · subst hac
            simp [hirr] at h2 ⊢
            exact ih bs cs h1 h2
          · have h3 : ¬ a < c := lt_asymm hac
            simp [h3, hac] at h2
        · have h3 : ¬ a < b := lt_asymm hab
          simp [h3, hab] at h1

instance : IsTotal Author loginLe :=
  ⟨fun a b => leChars_total (lowerStr a.login).data (lowerStr b.login).data⟩

instance : IsTrans Author loginLe :=
  ⟨fun a b c => leChars_trans (lowerStr a.login).data (lowerStr b.login).data
    (lowerStr c.login).data⟩

/-- When the cache guard does not hold, `list_contributors` falls through
to the remote-resolution part of the function body. -/
theorem list_contributors_not_fresh (cfg : Config) (p : Plugin) (path : String)
    (metaAuthors : Option String) (history : List Date) (today : Date)
    (remote : RemoteOutcome) (d : Date) (c : ConfAttrs)
    (hconf : p.conf = some c) (hlast : lastCommitDateLoop history = some d)
    (hfresh : cacheFresh p path d = false) :
    list_contributors cfg p path metaAuthors history today remote =
      resolveViaRemote cfg p c path metaAuthors d remote := by
  unfold list_contributors
  rw [hconf, hlast]
  unfold cacheFresh at hfresh
  cases hg : getRecord p.cache_page_authors path with
  | none => rfl
  | some rec =>
    rw [hg] at hfresh
    cases hc : p.cache_date with
    | none => rfl
    | some cd =>
      rw [hc] at hfresh
      simp only [] at hfresh
      simp [hfresh]

/-- C1: when a cache record exists for the path, the cache-wide date is
set, and the path's last commit date is strictly earlier than the cache
date, `list_contributors` returns exactly the cached
`(authors, last_commit_date)` pair, issues no remote lookup, and leaves
the state unchanged. -/
theorem c1_fresh_cache_hit (cfg : Config) (p : Plugin) (path : String)
    (metaAuthors : Option String) (history : List Date) (today : Date)
    (remote : RemoteOutcome) (d cd : Date) (c : ConfAttrs) (rec : FileRecord)
    (hconf : p.conf = some c) (hlast : lastCommitDateLoop history = some d)
    (hrec : getRecord p.cache_page_authors path = some rec)
    (hcd : p.cache_date = some cd) (hlt : Date.ltB d cd = true) :
    list_contributors cfg p path metaAuthors history today remote =
      { result := Except.ok (rec.authors, rec.last_commit_date), state := p,
        remoteCalled := false } := by
  unfold list_contributors
  rw [hconf, hlast, hrec, hcd]
  simp [hlt]

/-- Witness for C1 at a concrete fresh-cache input. -/
theorem c1_fresh_cache_hit_witness :
    list_contributors cfgA pCached "docs/a.md" none [⟨2024, 1, 1⟩] tA
        RemoteOutcome.raiseHTTP =
      { result := Except.ok (recA.authors, recA.last_commit_date), state := pCached,
        remoteCalled := false } :=
  c1_fresh_cache_hit cfgA pCached "docs/a.md" none [⟨2024, 1, 1⟩] tA
    RemoteOutcome.raiseHTTP ⟨2024, 1, 1⟩ ⟨2024, 2, 1⟩ confA recA
    (by decide) (by decide) (by decide) (by decide) (by decide)

/-- C2: for a path no commit touches (the history walk yields nothing),
`list_contributors` returns the empty author list paired with today's
date, issues no remote lookup, and leaves the cache state unchanged. -/
theorem c2_untracked_file (cfg : Config) (p : Plugin) (path : String)
    (metaAuthors : Option String) (today : Date) (remote : RemoteOutcome)
    (c : ConfAttrs) (hconf : p.conf = some c) :
    list_contributors cfg p path metaAuthors [] today remote =
      { result := Except.ok ([], today), state := p, remoteCalled := false } := by
  unfold list_contributors
  rw [hconf]
  rfl

/-- Witness for C2 at a concrete untracked path. -/
theorem c2_untracked_file_witness :
    list_contributors cfgA pCached "docs/new.md" (some "alice") [] tA
        RemoteOutcome.raiseHTTP =
      { result := Except.ok ([], tA), state := pCached, remoteCalled := false } :=
  c2_untracked_file cfgA pCached "docs/new.md" (some "alice") tA
    RemoteOutcome.raiseHTTP confA (by decide)

/-- C8: saving the cache with `on_post_build` and loading it with
`on_pre_build` reproduces an equivalent cache: the loaded cache date is
the date the file was written and the loaded per-path records are the
records that were saved. -/
theorem c8_cache_roundtrip (cfg : Config) (p q : Plugin) (today : Date)
    (fs : String → Option CacheDoc) :
    (on_pre_build cfg q (on_post_build cfg p today fs)).cache_date = some today ∧
    (on_pre_build cfg q (on_post_build cfg p today fs)).cache_page_authors =
      p.cache_page_authors := by
  unfold on_pre_build on_post_build
  simp

/-- C3 counterexample: with a well-formed request but a malformed response
body, `list_contributors` does not yield an empty remote-author list — the
parse failure happens in the `else` block of the `try` statement, so the
exception escapes to the caller. -/
theorem c3_parse_error_counterexample :
    (list_contributors cfgA pA "docs/a.md" none [dA] tA
        (RemoteOutcome.body ParsedBody.invalid)).result =
      Except.error PyErr.jsonError := by decide

/-- C3 amended: an exception raised while issuing the request (transport
error) is caught and yields the manual authors with an empty remote list,
but a malformed response body raises during parsing outside the `try`
block and the exception escapes `list_contributors`, leaving the cache
unchanged. -/
theorem c3_parse_error_escapes (cfg : Config) (p : Plugin) (path : String)
    (metaAuthors : Option String) (history : List Date) (today : Date)
    (d : Date) (c : ConfAttrs)
    (hconf : p.conf = some c) (hlast : lastCommitDateLoop history = some d)
    (hfresh : cacheFresh p path d = false)
    (hslash : 2 ≤ (splitOnChar '/' cfg.repository).length) :
    list_contributors cfg p path metaAuthors history today
        (RemoteOutcome.body ParsedBody.invalid) =
      { result := Except.error PyErr.jsonError, state := p, remoteCalled := true } ∧
    (list_contributors cfg p path metaAuthors history today
        RemoteOutcome.raiseOther).result =
      Except.ok (manualAuthorsOf c.githuburl c.github_avatar_url metaAuthors, d) := by
  rw [list_contributors_not_fresh cfg p path metaAuthors history today
    (RemoteOutcome.body ParsedBody.invalid) d c hconf hlast hfresh]
  rw [list_contributors_not_fresh cfg p path metaAuthors history today
    RemoteOutcome.raiseOther d c hconf hlast hfresh]
  unfold resolveViaRemote
  have hn : ¬ (splitOnChar '/' cfg.repository).length < 2 := Nat.not_lt.mpr hslash
  rw [if_neg hn, if_neg hn]
  exact ⟨rfl, by simp [finishResolve]⟩

/-- Witness for C3's amended statement at a concrete input. -/
theorem c3_parse_error_escapes_witness :
    list_contributors cfgA pA "docs/a.md" (some "alice") [dA] tA
        (RemoteOutcome.body ParsedBody.invalid) =
      { result := Except.error PyErr.jsonError, state := pA, remoteCalled := true } ∧
    (list_contributors cfgA pA "docs/a.md" (some "alice") [dA] tA
        RemoteOutcome.raiseOther).result =
      Except.ok (manualAuthorsOf confA.githuburl confA.github_avatar_url (some "alice"),
        dA) :=
  c3_parse_error_escapes cfgA pA "docs/a.md" (some "alice") [dA] tA dA confA
    (by decide) (by decide) (by decide) (by decide)

/-- C4 counterexample: with the repository option empty and the plugin
enabled, `on_config` returns without disabling anything, and the first
resolution raises `AttributeError` (reading the never-set `localrepo`
attribute) instead of producing manual-only results. -/
theorem c4_missing_repository_counterexample :
    (on_config cfgNoRepo initPlugin).enabled = true ∧
    (list_contributors cfgNoRepo (on_config cfgNoRepo initPlugin) "docs/x.md"
        (some "alice") [dA] tA RemoteOutcome.raiseHTTP).result =
      Except.error PyErr.attributeError := by decide

/-- C4 amended: with the repository option empty, `on_config` logs the
error and returns the config, leaving the plugin enabled and the remote
attributes unset; every subsequent `list_contributors` call then fails
with `AttributeError`, so the pipeline produces no manual-only results. -/
theorem c4_missing_repository_raises (cfg : Config) (p : Plugin)
    (hen : cfg.enabled = true) (hrepo : cfg.repository = "") (hp : p.conf = none) :
    (on_config cfg p).enabled = true ∧ (on_config cfg p).conf = none ∧
    ∀ (path : String) (metaAuthors : Option String) (history : List Date)
      (today : Date) (remote : RemoteOutcome),
      list_contributors cfg (on_config cfg p) path metaAuthors history today remote =
        { result := Except.error PyErr.attributeError, state := on_config cfg p,
          remoteCalled := false } := by
  have h1 : on_config cfg p = { p with enabled := cfg.enabled } := by
    unfold on_config
    rw [hen, hrepo]
    simp
  refine ⟨by rw [h1, hen], by rw [h1]; exact hp, ?_⟩
  intro path metaAuthors history today remote
  unfold list_contributors
  rw [h1]
  have h2 : ({ p with enabled := cfg.enabled } : Plugin).conf = none := hp
  rw [h2]

/-- Witness for C4's amended statement at a concrete input. -/
theorem c4_missing_repository_raises_witness :
    (on_config cfgNoRepo initPlugin).enabled = true ∧
    (on_config cfgNoRepo initPlugin).conf = none ∧
    list_contributors cfgNoRepo (on_config cfgNoRepo initPlugin) "docs/x.md"
        (some "alice") [dA] tA RemoteOutcome.raiseHTTP =
      { result := Except.error PyErr.attributeError,
        state := on_config cfgNoRepo initPlugin, remoteCalled := false } :=
  have h := c4_missing_repository_raises cfgNoRepo initPlugin rfl rfl rfl
  ⟨h.1, h.2.1, h.2.2 "docs/x.md" (some "alice") [dA] tA RemoteOutcome.raiseHTTP⟩

/-- C5: when the remote lookup raises an HTTPError (4xx/5xx response),
`list_contributors` returns exactly the manual authors (possibly empty)
with the last commit date; no exception reaches the caller. -/
theorem c5_http_error_manual_only (cfg : Config) (p : Plugin) (path : String)
    (metaAuthors : Option String) (history : List Date) (today : Date)
    (d : Date) (c : ConfAttrs)
    (hconf : p.conf = some c) (hlast : lastCommitDateLoop history = some d)
    (hfresh : cacheFresh p path d = false) :
    (list_contributors cfg p path metaAuthors history today
        RemoteOutcome.raiseHTTP).result =
      Except.ok (manualAuthorsOf c.githuburl c.github_avatar_url metaAuthors, d) := by
  rw [list_contributors_not_fresh cfg p path metaAuthors history today
    RemoteOutcome.raiseHTTP d c hconf hlast hfresh]
  unfold resolveViaRemote
  by_cases hsl : (splitOnChar '/' cfg.repository).length < 2
  · rw [if_pos hsl]
    simp [finishResolve]
  · rw [if_neg hsl]
    simp [finishResolve]

/-- Witness for C5 at a concrete 404 outcome. -/
theorem c5_http_error_manual_only_witness :
    (list_contributors cfgA pA "docs/a.md" (some "zed") [dA] tA
        RemoteOutcome.raiseHTTP).result =
      Except.ok (manualAuthorsOf confA.githuburl confA.github_avatar_url (some "zed"),
        dA) :=
  c5_http_error_manual_only cfgA pA "docs/a.md" (some "zed") [dA] tA dA confA
    (by decide) (by decide) (by decide)

/-- Every author the blame loop collects has a login that occurs nowhere
in the manual author list: the loop's guard skips any user whose login is
already manual. -/
theorem manual_absent_of_mem_foldl (g : String) (manual : List Author) :
    ∀ (rs : List (Option RemoteUser)) (acc : List Author) (b : Author),
      (∀ x ∈ acc, (manual.any fun y => y.login == x.login) = false) →
      b ∈ rs.foldl (addBlameAuthor g manual) acc →
      (manual.any fun y => y.login == b.login) = false := by
  intro rs
  induction rs with
  | nil => intro acc b hacc hb; exact hacc b hb
  | cons u rs ih =>
    intro acc b hacc hb
    refine ih (addBlameAuthor g manual acc u) b ?_ hb
    intro x hx
    cases u with
    | none => exact hacc x hx
    | some u =>
      simp only [addBlameAuthor] at hx
      by_cases hcond :
        ((acc.any fun y => y.login == u.login) || manual.any fun y => y.login == u.login) = true
      · rw [if_pos hcond] at hx
        exact hacc x hx
      · rw [if_neg hcond] at hx
        rcases List.mem_append.mp hx with hx1 | hx2
        · exact hacc x hx1
        · have hx3 : x = Author.mk u.login u.name (g ++ u.login) u.avatarUrl := by
            simpa using hx2
          subst hx3
          simp only [Bool.or_eq_true, not_or, Bool.not_eq_true] at hcond
          exact hcond.2

/-- C6 counterexample: the manual list itself is not deduplicated, so with
`authors: "bob,bob"` and a remote blame author `bob`, the result contains
two Authors with login `bob` (both manual), not exactly one. -/
theorem c6_duplicate_manual_counterexample :
    (list_contributors cfgA pA "docs/a.md" (some "bob,bob") [dA] tA
        (RemoteOutcome.body (ParsedBody.ranges
          [some { login := "bob", name := "Bob", avatarUrl := "avb" }]))).result =
      Except.ok
        ([{ login := "bob", name := "bob", url := "https://github.com/bob",
            avatar := "https://avatars.githubusercontent.com/bob" },
          { login := "bob", name := "bob", url := "https://github.com/bob",
            avatar := "https://avatars.githubusercontent.com/bob" }], dA) ∧
    (([{ login := "bob", name := "bob", url := "https://github.com/bob",
         avatar := "https://avatars.githubusercontent.com/bob" },
       { login := "bob", name := "bob", url := "https://github.com/bob",
         avatar := "https://avatars.githubusercontent.com/bob" }] : List Author).countP
          fun a => a.login == "bob") = 2 := by decide

/-- C6 amended: for a login that occurs in the manual author list, any
author list that `list_contributors` returns (on the non-cached path)
restricted to that login equals the manual list restricted to that login:
no remote-derived variant of a manual login ever appears, and the manual
entries (with their name and url) are kept — exactly one when the manual
logins are distinct. -/
theorem c6_manual_login_wins (cfg : Config) (p : Plugin) (path : String)
    (metaAuthors : Option String) (history : List Date) (today : Date)
    (d : Date) (c : ConfAttrs) (rs : List (Option RemoteUser))
    (hconf : p.conf = some c) (hlast : lastCommitDateLoop history = some d)
    (hfresh : cacheFresh p path d = false) :
    ∀ (l : String),
      ((manualAuthorsOf c.githuburl c.github_avatar_url metaAuthors).any
          fun x => x.login == l) = true →
      ∀ (as : List Author) (d2 : Date),
        (list_contributors cfg p path metaAuthors history today
            (RemoteOutcome.body (ParsedBody.ranges rs))).result = Except.ok (as, d2) →
        as.filter (fun a => a.login == l) =
          (manualAuthorsOf c.githuburl c.github_avatar_url metaAuthors).filter
            (fun a => a.login == l) := by
  intro l hl as d2 hres
  rw [list_contributors_not_fresh cfg p path metaAuthors history today
    (RemoteOutcome.body (ParsedBody.ranges rs)) d c hconf hlast hfresh] at hres
  unfold resolveViaRemote at hres
  by_cases hsl : (splitOnChar '/' cfg.repository).length < 2
  · rw [if_pos hsl] at hres
    simp [finishResolve] at hres
    rw [← hres.1]
  · rw [if_neg hsl] at hres
    simp [finishResolve] at hres
    rw [← hres.1]
    rw [List.filter_append]
    have hblame :
        ((sortBlame ((rs.foldl (addBlameAuthor c.githuburl
            (manualAuthorsOf c.githuburl c.github_avatar_url metaAuthors))) [])).filter
          fun a => a.login == l) = [] := by
      rw [List.filter_eq_nil_iff]
      intro b hb hpb
      have hmem : b ∈ rs.foldl (addBlameAuthor c.githuburl
          (manualAuthorsOf c.githuburl c.github_avatar_url metaAuthors)) [] :=
        (List.perm_insertionSort loginLe _).subset hb
      have habs := manual_absent_of_mem_foldl c.githuburl
        (manualAuthorsOf c.githuburl c.github_avatar_url metaAuthors) rs [] b
        (by intro x hx; cases hx) hmem
      have hbl : b.login = l := by simpa using hpb
      rw [hbl] at habs
      rw [habs] at hl
      exact absurd hl (by decide)
    rw [hblame, List.append_nil]

/-- Witness for C6's amended statement at a concrete input: manual author
`bob` with a remote blame author of the same login. -/
theorem c6_manual_login_wins_witness :
    ([{ login := "bob", name := "bob", url := "https://github.com/bob",
        avatar := "https://avatars.githubusercontent.com/bob" }].filter
          fun a => a.login == "bob") =
      ((manualAuthorsOf confA.githuburl confA.github_avatar_url (some "bob")).filter
        fun a => a.login == "bob") :=
  c6_manual_login_wins cfgA pA "docs/a.md" (some "bob") [dA] tA dA confA
    [some { login := "bob", name := "Bob", avatarUrl := "avb" }]
    (by decide) (by decide) (by decide) "bob" (by decide)
    [{ login := "bob", name := "bob", url := "https://github.com/bob",
       avatar := "https://avatars.githubusercontent.com/bob" }] dA (by decide)

/-- C7: every author list `list_contributors` computes on the non-cached
path is the manual authors followed by a remote-derived suffix that is
non-decreasingly ordered by login lowercased; every manual author precedes
every remote author regardless of alphabetical position. -/
theorem c7_sorted_remote_suffix (cfg : Config) (p : Plugin) (path : String)
    (metaAuthors : Option String) (history : List Date) (today : Date)
    (remote : RemoteOutcome) (d : Date) (c : ConfAttrs)
    (hconf : p.conf = some c) (hlast : lastCommitDateLoop history = some d)
    (hfresh : cacheFresh p path d = false) :
    ∀ (as : List Author) (d2 : Date),
      (list_contributors cfg p path metaAuthors history today remote).result =
        Except.ok (as, d2) →
      ∃ blame_authors,
        as = manualAuthorsOf c.githuburl c.github_avatar_url metaAuthors ++
          blame_authors ∧
        List.Pairwise loginLe blame_authors := by
  intro as d2 hres
  rw [list_contributors_not_fresh cfg p path metaAuthors history today
    remote d c hconf hlast hfresh] at hres
  unfold resolveViaRemote at hres
  by_cases hsl : (splitOnChar '/' cfg.repository).length < 2
  · rw [if_pos hsl] at hres
    simp [finishResolve] at hres
    exact ⟨[], by rw [← hres.1, List.append_nil], List.Pairwise.nil⟩
  · rw [if_neg hsl] at hres
    cases remote with
    | raiseHTTP =>
      simp [finishResolve] at hres
      exact ⟨[], by rw [← hres.1, List.append_nil], List.Pairwise.nil⟩
    | raiseOther =>
      simp [finishResolve] at hres
      exact ⟨[], by rw [← hres.1, List.append_nil], List.Pairwise.nil⟩
    | body b =>
      cases b with
      | invalid => simp at hres
      | ranges rs =>
        simp [finishResolve] at hres
        refine ⟨sortBlame (rs.foldl (addBlameAuthor c.githuburl
          (manualAuthorsOf c.githuburl c.github_avatar_url metaAuthors)) []),
          hres.1.symm, ?_⟩
        exact List.sorted_insertionSort loginLe _

/-- Witness for C7 at a concrete input with two unsorted remote authors
and no manual authors. -/
theorem c7_sorted_remote_suffix_witness :
    ∃ blame_authors,
      [{ login := "Alice", name := "A", url := "https://github.com/Alice",
         avatar := "aa" },
       { login := "charlie", name := "C", url := "https://github.com/charlie",
         avatar := "ac" }] =
        manualAuthorsOf confA.githuburl confA.github_avatar_url none ++ blame_authors ∧
      List.Pairwise loginLe blame_authors :=
  c7_sorted_remote_suffix cfgA pA "docs/a.md" none [dA] tA
    (RemoteOutcome.body (ParsedBody.ranges
      [some { login := "charlie", name := "C", avatarUrl := "ac" },
       some { login := "Alice", name := "A", avatarUrl := "aa" }]))
    dA confA (by decide) (by decide) (by decide)
    [{ login := "Alice", name := "A", url := "https://github.com/Alice",
       avatar := "aa" },
     { login := "charlie", name := "C", url := "https://github.com/charlie",
       avatar := "ac" }] dA (by decide)

/-- C9 counterexample: a present-but-empty `authors` metadata field does
not yield an empty sequence — Python splits the empty string into `[""]`,
producing one Author with empty login. -/
theorem c9_empty_field_counterexample :
    ¬ (manualAuthorsOf "https://github.com/" "https://avatars.githubusercontent.com/"
        (some "") = []) := by decide

/-- C9 amended: an absent `authors` field yields an empty sequence, but a
present field — including the empty string — is comma-split with every
token (possibly empty) yielding an Author verbatim, in declared order:
the empty-string field yields exactly one Author with empty login whose
url and avatar are the bare base URLs. -/
theorem c9_manual_parser_behavior (g a : String) :
    manualAuthorsOf g a none = [] ∧
    manualAuthorsOf g a (some "") = [{ login := "", name := "", url := g, avatar := a }] ∧
    ∀ s : String, (manualAuthorsOf g a (some s)).map Author.login = splitOnChar ',' s := by
  refine ⟨rfl, ?_, ?_⟩
  · have h : manualAuthorsOf g a (some "") =
        [{ login := "", name := "", url := g ++ "", avatar := a ++ "" }] := rfl
    rw [h]
    simp
  · intro s
    have h : manualAuthorsOf g a (some s) =
        (splitOnChar ',' s).map fun u => Author.mk u u (g ++ u) (a ++ u) := rfl
    rw [h, List.map_map,
      show (Author.login ∘ fun u => Author.mk u u (g ++ u) (a ++ u)) = id from
        funext fun u => rfl,
      List.map_id]

/-- C10: manual author tokens are taken verbatim from the comma-split
metadata value with no whitespace trimming — for `authors: "alice, bob"`
the second manual Author has login `" bob"` with the leading space — and
deduplication compares remote logins against that padded login, so a
remote author with login `"bob"` is not considered a duplicate and is
appended after the manual authors. -/
theorem c10_verbatim_manual_tokens :
    manualAuthorsOf confA.githuburl confA.github_avatar_url (some "alice, bob") =
      [{ login := "alice", name := "alice", url := "https://github.com/alice",
         avatar := "https://avatars.githubusercontent.com/alice" },
       { login := " bob", name := " bob", url := "https://github.com/ bob",
         avatar := "https://avatars.githubusercontent.com/ bob" }] ∧
    (list_contributors cfgA pA "docs/a.md" (some "alice, bob") [dA] tA
        (RemoteOutcome.body (ParsedBody.ranges
          [some { login := "bob", name := "Bob", avatarUrl := "avb" }]))).result =
      Except.ok
        ([{ login := "alice", name := "alice", url := "https://github.com/alice",
            avatar := "https://avatars.githubusercontent.com/alice" },
          { login := " bob", name := " bob", url := "https://github.com/ bob",
            avatar := "https://avatars.githubusercontent.com/ bob" },
          { login := "bob", name := "Bob", url := "https://github.com/bob",
            avatar := "avb" }], dA) := by decide
